import Mathlib

/-
Verification of the Scan2Card contact-extraction pipeline.

This file gives a shallow embedding, in Lean 4, of the two services that
carry the interesting logic of the repository:

  * src/src/services/qrCodeProcessor.service.ts
      (classifier, format parsers, unique-code extractor, normalizer,
       confidence scorer, processQRCode)
  * the business-card image scanner service
      (isValidBase64Image, isValidEmail, formatPhoneNumber,
       validateAndCleanData, scanBusinessCard, batchScanBusinessCards)

Conventions of the embedding:

  * JavaScript strings are modelled as Lean String (code points; all the
    relevant literals are ASCII, where JS UTF-16 length and Lean length
    agree).
  * A JavaScript object field that can be absent, present-but-undefined,
    or a string is modelled by the three-valued type JsField.  This
    distinction is load bearing: the object spread in normalizeContactData
    copies keys whose value is undefined.
  * JavaScript numbers are modelled as rationals.  Every confidence value
    produced by the code is a small rational (k/3, k/5, k/6, k/10) for
    which the IEEE-double round trip through toFixed(2) and parseFloat
    agrees with exact rational rounding to 2 decimals, so roundTo2 below
    is a faithful model of parseFloat(x.toFixed(2)) on the values that
    occur.
  * External collaborators (the WHATWG URL parser verdict, the crawler
    service, the vcard-parser npm library, the OpenAI vision call) are
    not part of the repository source; their outcomes are passed in as
    oracle parameters so that the theorems quantify over every possible
    behaviour of the collaborator.
  * Regular expressions from the source are either translated to direct
    character-list scans (with the translation argued in the comment of
    each definition) or run through the small backtracking engine Rx
    below, which implements the leftmost-match, greedy, backtracking
    semantics of JS regexes for the pattern combinators the source uses.
-/

/-- The JS whitespace class: the characters matched by the regex class
backslash-s and removed by String.prototype.trim (WhiteSpace and
LineTerminator code points of the ECMAScript spec). -/
def jsIsSpace (c : Char) : Bool :=
  c == ' ' || c == '\t' || c == '\n' || c == '\r' || c == '\x0b' || c == '\x0c' ||
  c == '\u00a0' || c == '\u1680' || (('\u2000' ≤ c) && (c ≤ '\u200a')) ||
  c == '\u2028' || c == '\u2029' || c == '\u202f' || c == '\u205f' || c == '\u3000' ||
  c == '\ufeff'

/-- The character class [A-Za-z0-9]. -/
def isAlnumJs (c : Char) : Bool :=
  (('A' ≤ c) && (c ≤ 'Z')) || (('a' ≤ c) && (c ≤ 'z')) || (('0' ≤ c) && (c ≤ '9'))

/-- The character class [0-9], i.e. the JS regex digit class. -/
def isDigitJs (c : Char) : Bool :=
  ('0' ≤ c) && (c ≤ '9')

/-- The character class [a-zA-Z]. -/
def isAlphaJs (c : Char) : Bool :=
  (('A' ≤ c) && (c ≤ 'Z')) || (('a' ≤ c) && (c ≤ 'z'))

/-- Trim on character lists: drop JS whitespace from the front and from
the back, modelling String.prototype.trim. -/
def jsTrimList (cs : List Char) : List Char :=
  ((cs.dropWhile jsIsSpace).reverse.dropWhile jsIsSpace).reverse

/-- String.prototype.trim. -/
def jsTrim (s : String) : String :=
  (jsTrimList s.toList).asString

/-- String.prototype.toLowerCase, modelled per character (exact on the
ASCII range, which is all the code relies on: it is used to test for the
ASCII prefixes "mailto:" and "tel:" and to lower-case emails/websites). -/
def jsToLower (s : String) : String :=
  (s.toList.map Char.toLower).asString

/-- String.prototype.startsWith. -/
def jsStartsWith (s pre : String) : Bool :=
  pre.toList.isPrefixOf s.toList

/-- String.prototype.indexOf on character lists: index of the first
occurrence of needle, none when absent (JS returns -1). -/
def jsIndexOf (needle : List Char) : List Char → Option Nat
  | [] => if needle.isEmpty then some 0 else none
  | c :: t =>
    if needle.isPrefixOf (c :: t) then some 0
    else (jsIndexOf needle t).map (· + 1)

/-- String.prototype.includes on character lists. -/
def containsSub (hay needle : List Char) : Bool :=
  (jsIndexOf needle hay).isSome

/-- String.prototype.split with a single-character separator: cuts at
every occurrence, keeping empty segments, exactly as JS split does. -/
def splitOnChar (sep : Char) : List Char → List (List Char)
  | [] => [[]]
  | c :: t =>
    if c == sep then [] :: splitOnChar sep t
    else
      match splitOnChar sep t with
      | [] => [[c]]
      | seg :: rest => (c :: seg) :: rest

/-- String.prototype.replace with a plain-string pattern: replaces only
the first occurrence, or returns the string unchanged when the pattern
does not occur. -/
def jsReplaceFirstList (s pat repl : List Char) : List Char :=
  match jsIndexOf pat s with
  | none => s
  | some i => s.take i ++ repl ++ s.drop (i + pat.length)

/-- String.prototype.replace with a plain-string pattern, on String. -/
def jsReplaceFirst (s pat repl : String) : String :=
  (jsReplaceFirstList s.toList pat.toList repl.toList).asString

/-- A field of a JavaScript object that is typed as an optional string:
it can be missing from the object, present with the value undefined, or
present with a string value.  The distinction between absent and
present-undefined matters for the object spread operator, which copies
present-undefined keys. -/
inductive JsField where
  | absent
  | undefined
  | str (s : String)
deriving DecidableEq, Repr

/-- JS truthiness of such a field: only a non-empty string is truthy. -/
def JsField.truthy : JsField → Bool
  | .str s => s ≠ ""
  | _ => false

/-- The JS idiom (field or defaultValue): the field when truthy, the
default otherwise. -/
def JsField.orDefault (f : JsField) (d : String) : String :=
  match f with
  | .str s => if s = "" then d else s
  | _ => d

/-- An Option String result assigned straight onto an object key, as in
(contactData.email = extractEmail(text)): the key becomes present, with
undefined when the extractor returned nothing. -/
def optField : Option String → JsField
  | some s => .str s
  | none => .undefined

/-- The QRContactData interface of qrCodeProcessor.service.ts: every
declared key, each an optional string field of the object. -/
structure QRContactData where
  title : JsField := .absent
  firstName : JsField := .absent
  lastName : JsField := .absent
  company : JsField := .absent
  position : JsField := .absent
  department : JsField := .absent
  email : JsField := .absent
  phoneNumber : JsField := .absent
  mobile : JsField := .absent
  website : JsField := .absent
  address : JsField := .absent
  streetName : JsField := .absent
  city : JsField := .absent
  country : JsField := .absent
  uniqueCode : JsField := .absent
deriving DecidableEq, Repr

/-- One defaulted key of normalizeContactData: the literal writes
(data.key or emptyString) and the trailing spread (...data) then
re-overrides it with data.key whenever that key is present, so the
default survives only for an absent key. -/
def normField (f : JsField) : JsField :=
  match f with
  | .absent => .str ""
  | x => x

/-- normalizeContactData of qrCodeProcessor.service.ts: builds the
object literal with empty-string defaults for the ten recognised keys,
spreads data over it (preserving title, department, mobile, streetName,
and re-overriding any present key, including present-undefined ones),
then deletes uniqueCode. -/
def normalizeContactData (d : QRContactData) : QRContactData where
  title := d.title
  firstName := normField d.firstName
  lastName := normField d.lastName
  company := normField d.company
  position := normField d.position
  department := d.department
  email := normField d.email
  phoneNumber := normField d.phoneNumber
  mobile := d.mobile
  website := normField d.website
  address := normField d.address
  streetName := d.streetName
  city := normField d.city
  country := normField d.country
  uniqueCode := .absent

/-- Object.values(d).filter(v and v.length greater than 0).length: the
number of keys of the object holding a non-empty string.  Absent keys
contribute no value, undefined and empty-string values are falsy. -/
def countNonEmpty (d : QRContactData) : Nat :=
  [d.title, d.firstName, d.lastName, d.company, d.position, d.department,
   d.email, d.phoneNumber, d.mobile, d.website, d.address, d.streetName,
   d.city, d.country, d.uniqueCode].countP (fun f => f.truthy)

/-- A small regex AST covering the combinators the source patterns use:
single-character classes, concatenation, greedy option over a
subexpression, and greedy bounded or unbounded repetition of a
character class.  Capture groups in the source patterns are either the
whole match (the code reads match[0]) or are handled by the dedicated
scanners further below, so the engine does not track captures. -/
inductive Rx where
  | cls (p : Char → Bool)
  | seq (a b : Rx)
  | opt (a : Rx)
  | repCls (p : Char → Bool) (lo : Nat) (hi : Option Nat)

/-- Backtracking matcher: all ways the expression can match a prefix of
the input, as the list of remaining suffixes in the priority order of a
JS regex engine (greedy, leftmost alternative first). -/
def Rx.matchAt : Rx → List Char → List (List Char)
  | .cls _, [] => []
  | .cls p, c :: rest => if p c then [rest] else []
  | .seq a b, s => (Rx.matchAt a s).flatMap (fun t => Rx.matchAt b t)
  | .opt a, s => Rx.matchAt a s ++ [s]
  | .repCls p lo hi, s =>
    let run := (s.takeWhile p).length
    let mx := match hi with
      | some h => min run h
      | none => run
    if mx < lo then []
    else (List.range (mx + 1 - lo)).map (fun k => s.drop (mx - k))

/-- First (highest-priority) match of the expression at the very start
of the input: the matched prefix, when one exists. -/
def rxMatchHere (r : Rx) (s : List Char) : Option (List Char) :=
  match Rx.matchAt r s with
  | rem :: _ => some (s.take (s.length - rem.length))
  | [] => none

/-- String.prototype.match with a non-global regex: try every start
position from the left, return the first position's best match.  This is
the leftmost-match rule of JS regexes. -/
def rxSearch (r : Rx) : List Char → Option (List Char)
  | [] => rxMatchHere r []
  | c :: t =>
    match rxMatchHere r (c :: t) with
    | some m => some m
    | none => rxSearch r t

/-- Shorthand for a single optional character, the regex idiom c? . -/
def rxOptC (p : Char → Bool) : Rx :=
  .repCls p 0 (some 1)

/-- The separator class [-.backslash-s] used inside the phone number
patterns. -/
def phoneSep (c : Char) : Bool :=
  c == '-' || c == '.' || jsIsSpace c

/-- The email regex of extractEmail:
[a-zA-Z0-9._%+-]+ at-sign [a-zA-Z0-9.-]+ dot [a-zA-Z]{2,} . -/
def emailRx : Rx :=
  .seq (.repCls (fun c => isAlnumJs c || c == '.' || c == '_' || c == '%' || c == '+' || c == '-') 1 none)
    (.seq (.cls (fun c => c == '@'))
      (.seq (.repCls (fun c => isAlnumJs c || c == '.' || c == '-') 1 none)
        (.seq (.cls (fun c => c == '.'))
          (.repCls isAlphaJs 2 none))))

/-- extractEmail of qrCodeProcessor.service.ts: first match of the email
regex anywhere in the text, undefined when there is none. -/
def extractEmail (text : String) : Option String :=
  (rxSearch emailRx text.toList).map List.asString

/-- Phone pattern 1: (backslash+? d{1,3} [-.s]?)? parenOpt d{3} parenOpt
[-.s]? d{3} [-.s]? d{4,5} — the US/Canada shape. -/
def phoneRx1 : Rx :=
  .seq (.opt (.seq (rxOptC (fun c => c == '+')) (.seq (.repCls isDigitJs 1 (some 3)) (rxOptC phoneSep))))
    (.seq (rxOptC (fun c => c == '('))
      (.seq (.repCls isDigitJs 3 (some 3))
        (.seq (rxOptC (fun c => c == ')'))
          (.seq (rxOptC phoneSep)
            (.seq (.repCls isDigitJs 3 (some 3))
              (.seq (rxOptC phoneSep)
                (.repCls isDigitJs 4 (some 5))))))))

/-- Phone pattern 2: the international grouped shape
backslash+? d{1,3} [-.s]? d{2,4} [-.s]? d{2,4} [-.s]? d{2,4} [-.s]? d{0,4}
(the outer capture group does not affect match[0]). -/
def phoneRx2 : Rx :=
  .seq (rxOptC (fun c => c == '+'))
    (.seq (.repCls isDigitJs 1 (some 3))
      (.seq (rxOptC phoneSep)
        (.seq (.repCls isDigitJs 2 (some 4))
          (.seq (rxOptC phoneSep)
            (.seq (.repCls isDigitJs 2 (some 4))
              (.seq (rxOptC phoneSep)
                (.seq (.repCls isDigitJs 2 (some 4))
                  (.seq (rxOptC phoneSep)
                    (.repCls isDigitJs 0 (some 4))))))))))

/-- Phone pattern 3: backslash+? d{10,15}, a bare international run. -/
def phoneRx3 : Rx :=
  .seq (rxOptC (fun c => c == '+')) (.repCls isDigitJs 10 (some 15))

/-- Phone pattern 4: ( d{3} ) s? d{3} [-.s] d{4}, the parenthesised US
shape.  The middle separator is a single mandatory class character. -/
def phoneRx4 : Rx :=
  .seq (.cls (fun c => c == '('))
    (.seq (.repCls isDigitJs 3 (some 3))
      (.seq (.cls (fun c => c == ')'))
        (.seq (rxOptC jsIsSpace)
          (.seq (.repCls isDigitJs 3 (some 3))
            (.seq (.cls phoneSep)
              (.repCls isDigitJs 4 (some 4)))))))

/-- Phone pattern 5: d{3} [-.s] d{3} [-.s] d{4}, the hyphenated US
shape with mandatory single separators. -/
def phoneRx5 : Rx :=
  .seq (.repCls isDigitJs 3 (some 3))
    (.seq (.cls phoneSep)
      (.seq (.repCls isDigitJs 3 (some 3))
        (.seq (.cls phoneSep)
          (.repCls isDigitJs 4 (some 4)))))

/-- The character class kept by the clean-up replace of extractPhone,
[0-9 + - backslash-s ( )]: everything else is deleted from the match. -/
def phoneKeep (c : Char) : Bool :=
  isDigitJs c || c == '+' || c == '-' || jsIsSpace c || c == '(' || c == ')'

/-- The loop body of extractPhone: match one pattern; when a match is
found, clean it and count its digits; accept when the digit count is
between 7 and 15, otherwise fall through to the next pattern. -/
def extractPhoneGo (text : List Char) : List Rx → Option String
  | [] => none
  | r :: rs =>
    match rxSearch r text with
    | none => extractPhoneGo text rs
    | some m =>
      let cleaned := jsTrimList (m.filter phoneKeep)
      let digitCount := (cleaned.filter isDigitJs).length
      if 7 ≤ digitCount && digitCount ≤ 15 then some cleaned.asString
      else extractPhoneGo text rs

/-- extractPhone of qrCodeProcessor.service.ts: the five phone patterns
tried in order, each match cleaned and validated by digit count. -/
def extractPhone (text : String) : Option String :=
  extractPhoneGo text.toList [phoneRx1, phoneRx2, phoneRx3, phoneRx4, phoneRx5]

/-- The keyword alternation of the first key-value pattern of
extractUniqueCode: code, uniquecode, unique underscore code, entrycode,
entry underscore code, uniqueid, unique underscore id, in the source
order of the alternation.  At any given start position at most one of
these keywords can match (their spellings diverge at the first
differing character), so trying them in order is exactly the JS
alternation semantics. -/
def kvKeys1 : List (List Char) :=
  ["code".toList, "uniquecode".toList, "unique_code".toList, "entrycode".toList,
   "entry_code".toList, "uniqueid".toList, "unique_id".toList]

/-- The keyword alternation of the second (NOTE-wrapped) key-value
pattern: code, uniquecode, unique underscore code. -/
def kvKeys2 : List (List Char) :=
  ["code".toList, "uniquecode".toList, "unique_code".toList]

/-- One attempt of keyword
whitespace* [=:] whitespace* [A-Za-z0-9]{9,15} at the start of s, with
the keyword compared case-insensitively (the regexes carry the i flag;
the keywords are ASCII).  The capture is the greedy 9-to-15 character
alphanumeric run: the leading min(15, run) characters when the run has
at least 9, since nothing follows the group in the pattern. -/
def tryKeyAt (key : List Char) (s : List Char) : Option String :=
  if (s.take key.length).map Char.toLower = key then
    let r1 := (s.drop key.length).dropWhile jsIsSpace
    match r1 with
    | c :: r2 =>
      if c == '=' || c == ':' then
        let r3 := r2.dropWhile jsIsSpace
        let tok := (r3.takeWhile isAlnumJs).take 15
        if 9 ≤ tok.length then some tok.asString else none
      else none
    | [] => none
  else none

/-- Try each keyword of the alternation in order at this position. -/
def tryKeys (keys : List (List Char)) (s : List Char) : Option String :=
  match keys with
  | [] => none
  | k :: ks =>
    match tryKeyAt k s with
    | some tok => some tok
    | none => tryKeys ks s

/-- Leftmost match of the first key-value pattern: scan every start
position from the left, try the keyword alternation at each. -/
def kvScan (keys : List (List Char)) : List Char → Option String
  | [] => none
  | c :: t =>
    match tryKeys keys (c :: t) with
    | some tok => some tok
    | none => kvScan keys t

/-- One attempt of the NOTE-wrapped pattern at the start of s:
NOTE whitespace* colon whitespace* then the keyword alternation with its
key-value tail, everything case-insensitive. -/
def tryNoteAt (s : List Char) : Option String :=
  if (s.take 4).map Char.toLower = "note".toList then
    match (s.drop 4).dropWhile jsIsSpace with
    | ':' :: r2 => tryKeys kvKeys2 (r2.dropWhile jsIsSpace)
    | _ => none
  else none

/-- Leftmost match of the NOTE-wrapped key-value pattern. -/
def noteScan : List Char → Option String
  | [] => none
  | c :: t =>
    match tryNoteAt (c :: t) with
    | some tok => some tok
    | none => noteScan t

/-- The key-value phase of extractUniqueCode: the two patterns of the
keyValuePatterns array tried in order, each returning its first capture
group when it matches anywhere in the text. -/
def kvExtract (text : String) : Option String :=
  match kvScan kvKeys1 text.toList with
  | some tok => some tok
  | none => noteScan text.toList

/-- The maximal alphanumeric runs of the text, each with the character
just before and just after it (none at a text edge): the run candidates
of the standalone pattern phase. -/
def alnumRunsGo (runBefore : Option Char) (acc : List Char) :
    List Char → List (Option Char × List Char × Option Char)
  | [] => if acc.isEmpty then [] else [(runBefore, acc.reverse, none)]
  | c :: t =>
    if isAlnumJs c then alnumRunsGo runBefore (c :: acc) t
    else if acc.isEmpty then alnumRunsGo (some c) [] t
    else (runBefore, acc.reverse, some c) :: alnumRunsGo (some c) [] t

/-- The matches of the global standalone pattern
word-boundary [A-Za-z0-9]{9,15} word-boundary.  A match is a maximal
alphanumeric run of length 9 to 15 whose neighbours are word
boundaries, i.e. whose adjacent characters (when they exist) are not
word characters; maximality makes the neighbours non-alphanumeric
already, so only an adjacent underscore can still veto the boundary.
Runs longer than 15 yield no match at all: the greedy repetition cannot
end at a word boundary anywhere inside the run, and every later start
position inside the run fails the leading boundary. -/
def standaloneMatches (cs : List Char) : List String :=
  (alnumRunsGo none [] cs).filterMap (fun trip =>
    if 9 ≤ trip.2.1.length && trip.2.1.length ≤ 15 &&
        trip.1 ≠ some '_' && trip.2.2 ≠ some '_'
    then some trip.2.1.asString else none)

/-- The context window the filter loop inspects for a candidate token:
text.substring(max(0, idx - 10), idx + length + 10) where idx is the
index of the first occurrence of the token in the text (the loop uses
indexOf, not the position of the run that produced the candidate).  The
candidates are substrings of the text, so indexOf always finds one;
Nat subtraction models the max with 0 and take clamps the end the way
JS substring does. -/
def standaloneContext (text : List Char) (m : String) : List Char :=
  let idx := (jsIndexOf m.toList text).getD 0
  (text.drop (idx - 10)).take (idx + m.length + 10 - (idx - 10))

/-- The filter loop over the standalone candidates: skip a candidate
whose digit count exceeds 10, or that is purely numeric (the anchored
digits-only regex test), or whose context window contains an at-sign,
http, or www; return the first survivor. -/
def pickStandalone (text : List Char) : List String → Option String
  | [] => none
  | m :: ms =>
    if 10 < (m.toList.filter isDigitJs).length then pickStandalone text ms
    else if !m.toList.isEmpty && m.toList.all isDigitJs then pickStandalone text ms
    else
      let ctx := standaloneContext text m
      if containsSub ctx ['@'] || containsSub ctx "http".toList ||
          containsSub ctx "www".toList then pickStandalone text ms
      else some m

/-- extractUniqueCode of qrCodeProcessor.service.ts: the key-value
patterns first, then the filtered standalone scan. -/
def extractUniqueCode (text : String) : Option String :=
  match kvExtract text with
  | some tok => some tok
  | none => pickStandalone text.toList (standaloneMatches text.toList)

/-- Value of one hex digit, as accepted in a percent escape. -/
def hexVal (c : Char) : Option Nat :=
  if ('0' ≤ c) && (c ≤ '9') then some (c.toNat - '0'.toNat)
  else if ('A' ≤ c) && (c ≤ 'F') then some (c.toNat - 'A'.toNat + 10)
  else if ('a' ≤ c) && (c ≤ 'f') then some (c.toNat - 'a'.toNat + 10)
  else none

/-- First pass of the ECMAScript Decode algorithm: literal characters
pass through, every percent escape must carry two hex digits and
becomes a byte; a malformed escape throws (none). -/
def decodeTokens : List Char → Option (List (Char ⊕ Nat))
  | [] => some []
  | '%' :: h1 :: h2 :: rest =>
    match hexVal h1, hexVal h2 with
    | some a, some b => (decodeTokens rest).map (fun ts => Sum.inr (16 * a + b) :: ts)
    | _, _ => none
  | '%' :: _ => none
  | c :: rest => (decodeTokens rest).map (fun ts => Sum.inl c :: ts)

/-- Whether a byte is a UTF-8 continuation byte. -/
def isCont (b : Nat) : Bool :=
  0x80 ≤ b && b ≤ 0xBF

/-- Second pass of Decode: bytes produced by consecutive percent
escapes must form valid UTF-8 (no overlong form, no surrogate, at most
U+10FFFF), anything else throws URIError (none). -/
def utf8Assemble : List (Char ⊕ Nat) → Option (List Char)
  | [] => some []
  | .inl c :: rest => (utf8Assemble rest).map (fun cs => c :: cs)
  | .inr b :: rest =>
    if b < 0x80 then
      (utf8Assemble rest).map (fun cs => Char.ofNat b :: cs)
    else if 0xC2 ≤ b && b ≤ 0xDF then
      match rest with
      | .inr b2 :: rest2 =>
        if isCont b2 then
          (utf8Assemble rest2).map (fun cs => Char.ofNat ((b - 0xC0) * 0x40 + (b2 - 0x80)) :: cs)
        else none
      | _ => none
    else if 0xE0 ≤ b && b ≤ 0xEF then
      match rest with
      | .inr b2 :: .inr b3 :: rest2 =>
        if isCont b2 && isCont b3 then
          let cp := (b - 0xE0) * 0x1000 + (b2 - 0x80) * 0x40 + (b3 - 0x80)
          if cp < 0x800 || (0xD800 ≤ cp && cp ≤ 0xDFFF) then none
          else (utf8Assemble rest2).map (fun cs => Char.ofNat cp :: cs)
        else none
      | _ => none
    else if 0xF0 ≤ b && b ≤ 0xF4 then
      match rest with
      | .inr b2 :: .inr b3 :: .inr b4 :: rest2 =>
        if isCont b2 && isCont b3 && isCont b4 then
          let cp := (b - 0xF0) * 0x40000 + (b2 - 0x80) * 0x1000 + (b3 - 0x80) * 0x40 + (b4 - 0x80)
          if cp < 0x10000 || 0x10FFFF < cp then none
          else (utf8Assemble rest2).map (fun cs => Char.ofNat cp :: cs)
        else none
      | _ => none
    else none

/-- The decodeURIComponent builtin: none models a thrown URIError. -/
def decodeURIComponent (s : String) : Option String :=
  ((decodeTokens s.toList).bind utf8Assemble).map List.asString

/-- The address portion computed by parseMailtoLink: replace the first
occurrence of the literal string mailto: (case sensitively — replace
with a string pattern does not share the case-insensitivity of the
classifier), take the part before the first question mark (split on the
question mark, element 0), and trim it. -/
def mailtoAddress (s : String) : String :=
  let emailPart := jsReplaceFirst s "mailto:" ""
  jsTrim ((splitOnChar '?' emailPart.toList).headD []).asString

/-- parseMailtoLink of qrCodeProcessor.service.ts: URL-decode the
address portion into the email key; a throwing decode is caught and
leaves the contact object empty. -/
def parseMailtoLink (s : String) : QRContactData :=
  match decodeURIComponent (mailtoAddress s) with
  | some v => { email := .str v }
  | none => {}

/-- parseTelLink of qrCodeProcessor.service.ts: strip the first
occurrence of tel:, delete every character outside
[0-9 + - whitespace ( )], trim, and store the result as both
phoneNumber and mobile. -/
def parseTelLink (s : String) : QRContactData :=
  let phone := (jsTrimList ((jsReplaceFirst s "tel:" "").toList.filter phoneKeep)).asString
  { phoneNumber := .str phone, mobile := .str phone }

/-- Whether a string contains three consecutive digits, the regex test
backslash-d{3} used by the plain-text name heuristic. -/
def hasThreeDigits (s : String) : Bool :=
  containsSubP s.toList
where
  containsSubP : List Char → Bool
    | a :: b :: c :: t => (isDigitJs a && isDigitJs b && isDigitJs c) || containsSubP (b :: c :: t)
    | _ => false

/-- parsePlainText of qrCodeProcessor.service.ts.  The email and
phoneNumber keys are assigned unconditionally, so they are present even
when the extractor found nothing (present with value undefined); the
uniqueCode, firstName and lastName keys are only assigned under their
guards.  The name heuristic takes the first line that is non-blank
after trimming, trims it, and uses it when it is shorter than 50
characters, contains no at-sign, and has no three-digit run: two or
more space-separated tokens put the first into firstName and the
space-joined rest into lastName, a single token goes to firstName. -/
def parsePlainText (text : String) : QRContactData :=
  let emailF := optField (extractEmail text)
  let phoneF := optField (extractPhone text)
  let ucF : JsField :=
    match extractUniqueCode text with
    | some c => .str c
    | none => .absent
  let lines := ((splitOnChar '\n' text.toList).map List.asString).filter (fun l => jsTrim l ≠ "")
  let name : JsField × JsField :=
    match lines with
    | [] => (.absent, .absent)
    | l0 :: _ =>
      let firstLine := jsTrim l0
      if firstLine.length < 50 && !firstLine.toList.contains '@' && !hasThreeDigits firstLine then
        let nameParts := (splitOnChar ' ' firstLine.toList).map List.asString
        if 2 ≤ nameParts.length then
          (.str (nameParts.headD ""), .str (String.intercalate " " (nameParts.drop 1)))
        else (.str firstLine, .absent)
      else (.absent, .absent)
  { email := emailF, phoneNumber := phoneF, uniqueCode := ucF,
    firstName := name.1, lastName := name.2 }

/-- The character class [A-Za-z0-9 hyphen underscore] of the entry-code
shape regex. -/
def entryChar (c : Char) : Bool :=
  isAlnumJs c || c == '-' || c == '_'

/-- isEntryCode of qrCodeProcessor.service.ts: the trimmed text must
have length 3 to 30, fully match the entry-code character class
(anchored regex: non-empty and every character in the class), and
contain no dot, at-sign, or slash. -/
def isEntryCode (text : String) : Bool :=
  let trimmed := jsTrim text
  if trimmed.length < 3 || 30 < trimmed.length then false
  else if !(!trimmed.toList.isEmpty && trimmed.toList.all entryChar) then false
  else if trimmed.toList.contains '.' || trimmed.toList.contains '@' ||
      trimmed.toList.contains '/' then false
  else true

/-- isVCard of qrCodeProcessor.service.ts. -/
def isVCard (text : String) : Bool :=
  jsStartsWith (jsTrim text) "BEGIN:VCARD" && containsSub text.toList "END:VCARD".toList

/-- Outcome of the HTTP call to the crawler collaborator, as
scrapeWebpage distinguishes them: a successful response carrying data,
a response without success/data, or a thrown transport/timeout error. -/
inductive CrawlerOutcome where
  | ok (data : QRContactData)
  | unsuccessful
  | failure
deriving Repr

/-- scrapeWebpage of qrCodeProcessor.service.ts: on a successful
response the crawler data is returned as is; an unsuccessful response
and a thrown error (timeout, transport) both degrade to a record
holding only the url as website. -/
def scrapeWebpage (o : CrawlerOutcome) (url : String) : QRContactData :=
  match o with
  | .ok d => d
  | .unsuccessful => { website := .str url }
  | .failure => { website := .str url }

/-- The collaborators outside the repository that processQRCode
consults: the verdict of the WHATWG URL constructor check in isURL (a
builtin, modelled as an arbitrary predicate), the crawler outcome, and
the result of parseVCard (which delegates to the external vcard-parser
library; none models its throw, which processQRCode turns into a
failure result). -/
structure ExternalWorld where
  isURLResult : String → Bool
  crawler : CrawlerOutcome
  vcardParsed : String → Option QRContactData

/-- The type tags of a QR processing result. -/
inductive QRType where
  | url
  | vcard
  | plaintext
  | entry_code
  | mailto
  | tel
deriving DecidableEq, Repr

/-- The data object of a successful QR processing result. -/
structure QRData where
  details : Option QRContactData := none
  entryCode : Option String := none
  rawData : String
  confidence : ℚ
deriving DecidableEq, Repr

/-- The QRProcessResult interface. -/
structure QRProcessResult where
  success : Bool
  type : QRType
  data : Option QRData := none
  error : Option String := none
deriving DecidableEq, Repr

/-- Rounding a rational to 2 decimal places: the model of
parseFloat(x.toFixed(2)).  toFixed picks the integer n minimising the
distance of n/100 to x, the larger n on a tie, which for the
non-negative values at hand is round half up, Mathlib round. -/
def roundTo2 (q : ℚ) : ℚ :=
  ((round (100 * q) : ℤ) : ℚ) / 100

/-- processQRCode of qrCodeProcessor.service.ts: the ordered
classification (empty, entry code, mailto, tel, URL, vCard, plain text)
with the per-branch parsing, normalization, and confidence scoring.
The uniqueCode of the raw parser output is surfaced as entryCode with
an empty-string default before normalization deletes it. -/
def processQRCode (ext : ExternalWorld) (qrText : String) : QRProcessResult :=
  if jsTrim qrText = "" then
    { success := false, type := .plaintext, error := some "QR code text is empty" }
  else
    let t := jsTrim qrText
    if isEntryCode t then
      { success := true, type := .entry_code,
        data := some { entryCode := some t, rawData := t, confidence := 1 } }
    else if jsStartsWith (jsToLower t) "mailto:" then
      let raw := parseMailtoLink t
      let contactData := normalizeContactData raw
      { success := true, type := .mailto,
        data := some { details := some contactData,
                       entryCode := some (raw.uniqueCode.orDefault ""),
                       rawData := t,
                       confidence := if contactData.email.truthy then 1 else 1/2 } }
    else if jsStartsWith (jsToLower t) "tel:" then
      let raw := parseTelLink t
      let contactData := normalizeContactData raw
      { success := true, type := .tel,
        data := some { details := some contactData,
                       entryCode := some (raw.uniqueCode.orDefault ""),
                       rawData := t,
                       confidence := if contactData.phoneNumber.truthy then 1 else 1/2 } }
    else if ext.isURLResult t then
      let raw := scrapeWebpage ext.crawler t
      let contactData := normalizeContactData raw
      { success := true, type := .url,
        data := some { details := some contactData,
                       entryCode := some (raw.uniqueCode.orDefault ""),
                       rawData := t,
                       confidence := roundTo2 (min ((countNonEmpty contactData : ℚ) / 10) 1) } }
    else if isVCard t then
      match ext.vcardParsed t with
      | none =>
        { success := false, type := .plaintext, error := some "Failed to parse vCard data" }
      | some raw =>
        let contactData := normalizeContactData raw
        { success := true, type := .vcard,
          data := some { details := some contactData,
                         entryCode := some (raw.uniqueCode.orDefault ""),
                         rawData := t,
                         confidence := roundTo2 (min ((countNonEmpty contactData : ℚ) / 5) 1) } }
    else
      let raw := parsePlainText t
      let contactData := normalizeContactData raw
      let fieldCount := countNonEmpty contactData
      { success := true, type := .plaintext,
        data := some { details := some contactData,
                       entryCode := some (raw.uniqueCode.orDefault ""),
                       rawData := t,
                       confidence := roundTo2 (if 0 < fieldCount then min ((fieldCount : ℚ) / 3) 1 else 3/10) } }

/-- The BusinessCardData interface of the card image scanner: the
fields the vision prompt asks for, plus notes.  JSON null and a missing
key are both modelled as none (both are falsy and the cleaning step
only ever tests truthiness before reading a field). -/
structure BusinessCardData where
  firstName : Option String := none
  lastName : Option String := none
  company : Option String := none
  position : Option String := none
  email : Option String := none
  phoneNumber : Option String := none
  website : Option String := none
  address : Option String := none
  city : Option String := none
  country : Option String := none
  notes : Option String := none
deriving DecidableEq, Repr

/-- The data object of a successful scan result. -/
structure ScanData where
  ocrText : String
  details : BusinessCardData
  confidence : ℚ
deriving DecidableEq, Repr

/-- The ScanResult interface of the card image scanner. -/
structure ScanResult where
  success : Bool
  data : Option ScanData := none
  error : Option String := none
deriving DecidableEq, Repr

/-- isValidEmail of the card image scanner: the anchored regex
caret [^s@]+ at-sign [^s@]+ dot [^s@]+ dollar.  The first piece cannot
contain the at-sign, so a matching string decomposes as local at-sign
rest where the local part is non-empty and free of whitespace and
at-signs, and rest is non-empty, free of whitespace and at-signs, and
contains a dot with at least one character on each side (the dot of the
pattern; the pieces around it may themselves contain dots). -/
def isValidEmail (email : String) : Bool :=
  match splitOnChar '@' email.toList with
  | [a, b] =>
    !a.isEmpty && a.all (fun c => !jsIsSpace c) &&
    b.all (fun c => !jsIsSpace c) &&
    (List.range b.length).any (fun j =>
      b.getD j ' ' == '.' && 0 < j && j + 1 < b.length)
  | _ => false

/-- formatPhoneNumber of the card image scanner: delete every character
that is not a digit or a plus sign; when a plus sign survives, delete
every plus sign and prepend a single one. -/
def formatPhoneNumber (phone : String) : String :=
  let cleaned := (phone.toList.filter (fun c => isDigitJs c || c == '+')).asString
  if cleaned.toList.contains '+' then
    "+" ++ (cleaned.toList.filter (fun c => !(c == '+'))).asString
  else cleaned

/-- One trim-if-truthy field of validateAndCleanData. -/
def cleanTrim : Option String → Option String
  | some s => if s = "" then none else some (jsTrim s)
  | none => none

/-- validateAndCleanData of the card image scanner: trim the plain text
fields, keep the email only when its trimmed form passes isValidEmail
(then lower-case it), push the phone through formatPhoneNumber, and
lower-case the website, prefixing https:// when no protocol is
present.  Falsy fields (missing, null, empty) are dropped. -/
def validateAndCleanData (d : BusinessCardData) : BusinessCardData where
  firstName := cleanTrim d.firstName
  lastName := cleanTrim d.lastName
  company := cleanTrim d.company
  position := cleanTrim d.position
  email :=
    match d.email with
    | some s =>
      if s ≠ "" && isValidEmail (jsTrim s) then some (jsToLower (jsTrim s)) else none
    | none => none
  phoneNumber :=
    match d.phoneNumber with
    | some s => if s = "" then none else some (formatPhoneNumber s)
    | none => none
  website :=
    match d.website with
    | some s =>
      if s = "" then none
      else
        let w := jsToLower (jsTrim s)
        if !jsStartsWith w "http://" && !jsStartsWith w "https://" then
          some ("https://" ++ w)
        else some w
    | none => none
  address := cleanTrim d.address
  city := cleanTrim d.city
  country := cleanTrim d.country
  notes := cleanTrim d.notes

/-- Object.keys(cleaned).length: the number of keys the cleaning step
assigned. -/
def countKeys (d : BusinessCardData) : Nat :=
  [d.firstName, d.lastName, d.company, d.position, d.email, d.phoneNumber,
   d.website, d.address, d.city, d.country, d.notes].countP Option.isSome

/-- The base64 character class [A-Za-z0-9 + / =]. -/
def base64Char (c : Char) : Bool :=
  isAlnumJs c || c == '+' || c == '/' || c == '='

/-- isValidBase64Image of the card image scanner: the data-URL prefix
regex (anchored at the start only, so a prefix test) or a full match of
the bare base64 character class. -/
def isValidBase64Image (s : String) : Bool :=
  jsStartsWith s "data:image/jpeg;base64," || jsStartsWith s "data:image/jpg;base64," ||
  jsStartsWith s "data:image/png;base64," || jsStartsWith s "data:image/webp;base64," ||
  (!s.toList.isEmpty && s.toList.all base64Char)

/-- Everything that can come back from the vision call and the JSON
parsing of its reply, which are external to the repository: the three
OpenAI error codes the catch block maps specially, any other thrown
error (carrying error.message), a reply without content, a reply whose
content fails JSON parsing, or a successfully parsed card object
together with the raw reply text. -/
inductive VisionOutcome where
  | errApiKeyInvalid
  | errRateLimit
  | errQuota
  | errOther (msg : String)
  | noContent
  | badJson (raw : String)
  | parsed (ocr : String) (d : BusinessCardData)
deriving DecidableEq, Repr

/-- The part of the process environment the scanner reads. -/
structure ScanEnv where
  apiKey : Option String
deriving DecidableEq, Repr

/-- scanBusinessCard of the card image scanner: fail fast when no API
key is configured (undefined or empty are both falsy), validate the
image shape, then dispatch on the vision outcome; a parsed reply is
cleaned and scored with denominator 6. -/
def scanBusinessCard (env : ScanEnv) (vision : VisionOutcome) (imageBase64 : String) : ScanResult :=
  if env.apiKey = none ∨ env.apiKey = some "" then
    { success := false,
      error := some "OpenAI API key not configured. Please set OPENAI_API_KEY in environment variables." }
  else if !isValidBase64Image imageBase64 then
    { success := false,
      error := some "Invalid image format. Please provide a valid base64 encoded image." }
  else
    match vision with
    | .errApiKeyInvalid => { success := false, error := some "Invalid OpenAI API key" }
    | .errRateLimit =>
      { success := false, error := some "OpenAI API rate limit exceeded. Please try again later." }
    | .errQuota =>
      { success := false, error := some "OpenAI API quota exceeded. Please check your billing." }
    | .errOther msg =>
      { success := false,
        error := some (if msg = "" then "Failed to scan business card" else msg) }
    | .noContent => { success := false, error := some "No response from OpenAI API" }
    | .badJson _ =>
      { success := false, error := some "Failed to parse extracted data from business card" }
    | .parsed ocr d =>
      let cleanedData := validateAndCleanData d
      { success := true,
        data := some { ocrText := ocr, details := cleanedData,
                       confidence := roundTo2 (min ((countKeys cleanedData : ℚ) / 6) 1) } }

/-- batchScanBusinessCards: the sequential loop pushing one scan result
per image onto an accumulator.  The vision outcome of each call is
given per image. -/
def batchScanGo (env : ScanEnv) (vision : String → VisionOutcome)
    (images : List String) (results : List ScanResult) : List ScanResult :=
  match images with
  | [] => results
  | img :: rest => batchScanGo env vision rest (results ++ [scanBusinessCard env (vision img) img])

/-- batchScanBusinessCards of the card image scanner. -/
def batchScanBusinessCards (env : ScanEnv) (vision : String → VisionOutcome)
    (images : List String) : List ScanResult :=
  batchScanGo env vision images []

/-- The three facts claim C6 needs of one confidence value. -/
def confWellFormed (c : ℚ) : Prop :=
  0 ≤ c ∧ c ≤ 1 ∧ roundTo2 c = c

/-- A concrete external-world instantiation used by closed theorems:
the URL check rejects everything, the crawler fails, vCard parsing
throws. -/
def extW : ExternalWorld where
  isURLResult := fun _ => false
  crawler := .failure
  vcardParsed := fun _ => none

/-- A concrete external world whose URL check accepts everything and
whose crawler throws. -/
def extU : ExternalWorld where
  isURLResult := fun _ => true
  crawler := .failure
  vcardParsed := fun _ => none

/-- round is monotone on the rationals. -/
theorem round_mono_q {a b : ℚ} (h : a ≤ b) : round a ≤ round b := by
  rw [round_eq, round_eq]
  exact Int.floor_mono (by linarith)

/-- Rounding to 2 decimals is idempotent. -/
theorem roundTo2_idem (q : ℚ) : roundTo2 (roundTo2 q) = roundTo2 q := by
  unfold roundTo2
  have h : (100 : ℚ) * (((round (100 * q) : ℤ) : ℚ) / 100) = ((round (100 * q) : ℤ) : ℚ) := by
    field_simp
  rw [h, round_intCast]

/-- Rounding to 2 decimals keeps the unit interval. -/
theorem roundTo2_bounds (q : ℚ) (h0 : 0 ≤ q) (h1 : q ≤ 1) :
    0 ≤ roundTo2 q ∧ roundTo2 q ≤ 1 := by
  unfold roundTo2
  have l : (0 : ℤ) ≤ round (100 * q) := by
    have h := round_mono_q (show (0 : ℚ) ≤ 100 * q by linarith)
    simpa using h
  have u : round ((100 : ℚ) * q) ≤ 100 := by
    have h := round_mono_q (show (100 : ℚ) * q ≤ 100 by linarith)
    simpa using h
  constructor
  · exact div_nonneg (by exact_mod_cast l) (by norm_num)
  · rw [div_le_one (by norm_num)]
    exact_mod_cast u

theorem confWellFormed_one : confWellFormed 1 := by
  refine ⟨by norm_num, le_refl 1, ?_⟩
  unfold roundTo2
  norm_num

theorem confWellFormed_half : confWellFormed (1 / 2) := by
  refine ⟨by norm_num, by norm_num, ?_⟩
  unfold roundTo2
  norm_num

theorem confWellFormed_roundTo2 (q : ℚ) (h0 : 0 ≤ q) (h1 : q ≤ 1) :
    confWellFormed (roundTo2 q) :=
  ⟨(roundTo2_bounds q h0 h1).1, (roundTo2_bounds q h0 h1).2, roundTo2_idem q⟩

/-- The raw ratio min(count / denominator, 1) sits in the unit interval. -/
theorem min_ratio_mem (n : ℕ) (d : ℚ) (hd : 0 < d) :
    0 ≤ min ((n : ℚ) / d) 1 ∧ min ((n : ℚ) / d) 1 ≤ 1 :=
  ⟨le_min (div_nonneg (Nat.cast_nonneg n) hd.le) zero_le_one, min_le_right _ _⟩

theorem contains_filter_keep (l : List Char) :
    (l.filter (fun c => isDigitJs c || c == '+')).contains '+' = l.contains '+' := by
  simp only [List.contains]
  by_cases hp : '+' ∈ l
  · have h1 : '+' ∈ l.filter (fun c => isDigitJs c || c == '+') := by
      rw [List.mem_filter]
      exact ⟨hp, by simp⟩
    rw [List.elem_iff.mpr h1, List.elem_iff.mpr hp]
  · have h1 : '+' ∉ l.filter (fun c => isDigitJs c || c == '+') := by
      rw [List.mem_filter]
      intro hx
      exact hp hx.1
    have e1 : List.elem '+' (l.filter (fun c => isDigitJs c || c == '+')) = false :=
      Bool.eq_false_iff.mpr (fun hcon => h1 (List.elem_iff.mp hcon))
    have e2 : List.elem '+' l = false :=
      Bool.eq_false_iff.mpr (fun hcon => hp (List.elem_iff.mp hcon))
    rw [e1, e2]

theorem filter_keep_drop_plus (l : List Char) :
    (l.filter (fun c => isDigitJs c || c == '+')).filter
      (fun c => !(c == '+')) = l.filter isDigitJs := by
  rw [List.filter_filter]
  refine List.filter_congr ?_
  intro c _
  by_cases hcc : c = '+'
  · subst hcc
    simp [isDigitJs]
  · have : (c == '+') = false := by simp [hcc]
    simp [this]

/-- Claim C7 (amended): the cleaned phone number returned by
formatPhoneNumber is exactly the digits of the input in order, preceded
by a single plus sign precisely when the input contained a plus sign
anywhere (not only as its leading character: any interior plus sign is
kept and hoisted to the front). -/
theorem formatPhoneNumber_plus_digits (phone : String) :
    formatPhoneNumber phone =
      (if phone.toList.contains '+' then "+" else "") ++
        (phone.toList.filter isDigitJs).asString := by
  simp only [formatPhoneNumber, List.toList_asString]
  rw [contains_filter_keep]
  by_cases h : phone.toList.contains '+'
  · rw [if_pos h, if_pos h, filter_keep_drop_plus]
  · rw [if_neg h, if_neg h]
    have hnp : '+' ∉ phone.toList := fun hmem => h (List.elem_iff.mpr hmem)
    have heq : phone.toList.filter (fun c => isDigitJs c || c == '+')
        = phone.toList.filter isDigitJs := by
      refine List.filter_congr ?_
      intro c hcmem
      by_cases hcc : c = '+'
      · exact absurd (hcc ▸ hcmem) hnp
      · have : (c == '+') = false := by simp [hcc]
        simp [this]
    rw [heq]
    exact (String.empty_append _).symm

/-- Claim C7 counterexample: on the input 123+45, whose leading
character is a digit, the cleaned phone number is +12345 — it is not
made of digits only, so the plus sign in the output did not come from a
leading plus sign of the input. -/
theorem formatPhoneNumber_interior_plus :
    formatPhoneNumber "123+45" = "+12345" ∧
    ("+12345".toList.all isDigitJs) = false ∧
    "123+45".toList.head? ≠ some '+' := by
  refine ⟨by decide, by decide, by decide⟩

/-- Claim C8: with no configured API credential (the environment
variable unset or empty, both falsy), scanBusinessCard fails fast with
the credential-missing message, and the result does not depend on the
vision collaborator in any way — no network call is consulted. -/
theorem scanBusinessCard_missing_credential (env : ScanEnv)
    (h : env.apiKey = none ∨ env.apiKey = some "") (v1 v2 : VisionOutcome) (img : String) :
    scanBusinessCard env v1 img =
      { success := false,
        error := some "OpenAI API key not configured. Please set OPENAI_API_KEY in environment variables." } ∧
    scanBusinessCard env v1 img = scanBusinessCard env v2 img := by
  unfold scanBusinessCard
  rw [if_pos h, if_pos h]
  exact ⟨rfl, rfl⟩

/-- Witness for claim C8 at a concrete unset-credential environment. -/
theorem scanBusinessCard_missing_credential_witness :
    scanBusinessCard { apiKey := none } VisionOutcome.noContent "abc" =
      { success := false,
        error := some "OpenAI API key not configured. Please set OPENAI_API_KEY in environment variables." } ∧
    scanBusinessCard { apiKey := none } VisionOutcome.noContent "abc" =
      scanBusinessCard { apiKey := none } VisionOutcome.errQuota "abc" :=
  scanBusinessCard_missing_credential { apiKey := none } (Or.inl rfl)
    VisionOutcome.noContent VisionOutcome.errQuota "abc"

theorem batchScanGo_eq (env : ScanEnv) (vision : String → VisionOutcome) :
    ∀ (images : List String) (acc : List ScanResult),
      batchScanGo env vision images acc =
        acc ++ images.map (fun img => scanBusinessCard env (vision img) img) := by
  intro images
  induction images with
  | nil => intro acc; simp [batchScanGo]
  | cons img rest ih =>
    intro acc
    rw [batchScanGo, ih]
    simp

/-- Claim C9: the batch entry point processes its list strictly
sequentially and independently: the result list has one entry per
image, in order, and the i-th entry is exactly the single-scan result
of the i-th image (so one item's failure cannot influence any other
position). -/
theorem batchScan_sequential (env : ScanEnv) (vision : String → VisionOutcome)
    (images : List String) :
    (batchScanBusinessCards env vision images).length = images.length ∧
    ∀ (i : Nat),
      (batchScanBusinessCards env vision images)[i]? =
        (images[i]?).map (fun img => scanBusinessCard env (vision img) img) := by
  unfold batchScanBusinessCards
  rw [batchScanGo_eq]
  simp only [List.nil_append]
  exact ⟨List.length_map _ _, fun i => List.getElem?_map _ _ _⟩

theorem isValidEmail_ne_empty (s : String) (h : isValidEmail (jsTrim s) = true) : s ≠ "" := by
  intro he
  subst he
  exact absurd h (by decide)

/-- Claim C10: whenever the field cleaning of the card image scanner
retains an email — that is, the field is truthy and its trimmed form
passes the validation regex — the retained value is the trimmed email
converted entirely to lower case; and any retained email value is of
that shape. -/
theorem validateAndCleanData_email_lowercase (d : BusinessCardData) (s : String)
    (hs : d.email = some s) :
    (isValidEmail (jsTrim s) = true →
      (validateAndCleanData d).email = some (jsToLower (jsTrim s))) ∧
    (∀ v, (validateAndCleanData d).email = some v → v = jsToLower (jsTrim s)) := by
  constructor
  · intro hv
    have hne : s ≠ "" := isValidEmail_ne_empty s hv
    simp only [validateAndCleanData, hs]
    rw [if_pos]
    simp [hne, hv]
  · intro v hv
    simp only [validateAndCleanData, hs] at hv
    by_cases hc : (s ≠ "" && isValidEmail (jsTrim s) : Bool) = true
    · rw [if_pos hc] at hv
      exact (Option.some_inj.mp hv).symm
    · rw [if_neg hc] at hv
      exact absurd hv (by simp)

/-- Witness for claim C10: a mixed-case padded email is retained as its
trimmed, lower-cased form. -/
theorem validateAndCleanData_email_lowercase_witness :
    (validateAndCleanData { email := some " John@Ex.COM " }).email =
      some (jsToLower (jsTrim " John@Ex.COM ")) :=
  (validateAndCleanData_email_lowercase { email := some " John@Ex.COM " }
    " John@Ex.COM " rfl).1 (by decide)

/-- Claim C6: on every code path of processQRCode and of
scanBusinessCard that returns a data object, the confidence value lies
in the closed unit interval and is a fixed point of rounding to 2
decimal places. -/
theorem confidence_well_formed :
    (∀ (ext : ExternalWorld) (qrText : String) (d : QRData),
      (processQRCode ext qrText).data = some d →
        0 ≤ d.confidence ∧ d.confidence ≤ 1 ∧ roundTo2 d.confidence = d.confidence) ∧
    (∀ (env : ScanEnv) (vision : VisionOutcome) (img : String) (sd : ScanData),
      (scanBusinessCard env vision img).data = some sd →
        0 ≤ sd.confidence ∧ sd.confidence ≤ 1 ∧ roundTo2 sd.confidence = sd.confidence) := by
  constructor
  · intro ext qrText d h
    simp only [processQRCode] at h
    split at h
    · exact absurd h (by simp)
    · split at h
      · injection h with h'
        subst h'
        exact confWellFormed_one
      · split at h
        · injection h with h'
          subst h'
          by_cases hx : (normalizeContactData (parseMailtoLink (jsTrim qrText))).email.truthy
          · simp only [hx, if_true]
            exact confWellFormed_one
          · simp only [hx, if_false]
            exact confWellFormed_half
        · split at h
          · injection h with h'
            subst h'
            by_cases hx : (normalizeContactData (parseTelLink (jsTrim qrText))).phoneNumber.truthy
            · simp only [hx, if_true]
              exact confWellFormed_one
            · simp only [hx, if_false]
              exact confWellFormed_half
          · split at h
            · injection h with h'
              subst h'
              have hb := min_ratio_mem
                (countNonEmpty (normalizeContactData (scrapeWebpage ext.crawler (jsTrim qrText))))
                10 (by norm_num)
              exact confWellFormed_roundTo2 _ hb.1 hb.2
            · split at h
              · split at h
                · exact absurd h (by simp)
                · injection h with h'
                  subst h'
                  rename_i raw _
                  have hb := min_ratio_mem (countNonEmpty (normalizeContactData raw)) 5 (by norm_num)
                  exact confWellFormed_roundTo2 _ hb.1 hb.2
              · injection h with h'
                subst h'
                by_cases hf :
                    0 < countNonEmpty (normalizeContactData (parsePlainText (jsTrim qrText)))
                · simp only [hf, if_true]
                  have hb := min_ratio_mem
                    (countNonEmpty (normalizeContactData (parsePlainText (jsTrim qrText))))
                    3 (by norm_num)
                  exact confWellFormed_roundTo2 _ hb.1 hb.2
                · simp only [hf, if_false]
                  exact confWellFormed_roundTo2 (3 / 10) (by norm_num) (by norm_num)
  · intro env vision img sd h
    simp only [scanBusinessCard] at h
    split at h
    · exact absurd h (by simp)
    · split at h
      · exact absurd h (by simp)
      · split at h
        · exact absurd h (by simp)
        · exact absurd h (by simp)
        · exact absurd h (by simp)
        · exact absurd h (by simp)
        · exact absurd h (by simp)
        · exact absurd h (by simp)
        · injection h with h'
          subst h'
          rename_i d2
          have hb := min_ratio_mem (countKeys (validateAndCleanData d2)) 6 (by norm_num)
          exact confWellFormed_roundTo2 _ hb.1 hb.2

/-- Witness for claim C6 on the entry-code path of processQRCode,
whose confidence is the literal 1. -/
theorem confidence_well_formed_witness :
    0 ≤ (1 : ℚ) ∧ (1 : ℚ) ≤ 1 ∧ roundTo2 1 = 1 :=
  confidence_well_formed.1 extW "ABC123XYZ"
    { details := none, entryCode := some "ABC123XYZ", rawData := "ABC123XYZ", confidence := 1 }
    (by decide)

/-- Claim C1 (code bug in the normalizer): the plain-text parser
assigns the email and phoneNumber keys unconditionally, so on an input
without an email or phone the keys are present with value undefined;
the spread (...data) placed after the empty-string defaults in
normalizeContactData copies those present-undefined keys back over the
defaults, so the normalized record carries undefined — not a string —
for email and phoneNumber, contradicting the normalizer doc comment
(ensure all required fields are present with empty strings).  The
uniqueCode deletion half of the invariant does hold. -/
theorem normalize_plaintext_keeps_undefined :
    (normalizeContactData (parsePlainText "Hello World")).email = JsField.undefined ∧
    (normalizeContactData (parsePlainText "Hello World")).phoneNumber = JsField.undefined ∧
    (normalizeContactData (parsePlainText "Hello World")).uniqueCode = JsField.absent := by
  refine ⟨by decide, by decide, by decide⟩

theorem pickStandalone_filtered (text : List Char) :
    ∀ (ms : List String) (m : String), pickStandalone text ms = some m →
      (!m.toList.isEmpty && m.toList.all isDigitJs) = false ∧
      containsSub (standaloneContext text m) ['@'] = false ∧
      containsSub (standaloneContext text m) "http".toList = false ∧
      containsSub (standaloneContext text m) "www".toList = false := by
  intro ms
  induction ms with
  | nil =>
    intro m h
    exact absurd h (by simp [pickStandalone])
  | cons x xs ih =>
    intro m h
    simp only [pickStandalone] at h
    split at h
    · exact ih m h
    · split at h
      · exact ih m h
      · split at h
        · exact ih m h
        · rename_i hdig hall hctx
          injection h with h'
          subst h'
          simp only [Bool.or_eq_true, not_or, Bool.not_eq_true] at hctx
          exact ⟨by simpa using hall, hctx.1.1, hctx.1.2, hctx.2⟩

/-- Claim C2 counterexample: on the key-value path the captured token
is returned with no filtering at all, so the purely numeric token of
code=123456789 is returned. -/
theorem extractUniqueCode_keyValue_numeric :
    extractUniqueCode "code=123456789" = some "123456789" ∧
    ("123456789".toList.all isDigitJs) = true := by
  refine ⟨by decide, by decide⟩

/-- Claim C2 (amended): only the fallback standalone path filters its
candidates, and there the returned token is never purely numeric and
never has an at-sign, http, or www inside the context window around the
first occurrence of the token in the text (the window the code
inspects: 10 characters before, the token, 10 characters after). -/
theorem extractUniqueCode_fallback_filters (text m : String)
    (hkv : kvExtract text = none)
    (h : extractUniqueCode text = some m) :
    (!m.toList.isEmpty && m.toList.all isDigitJs) = false ∧
    containsSub (standaloneContext text.toList m) ['@'] = false ∧
    containsSub (standaloneContext text.toList m) "http".toList = false ∧
    containsSub (standaloneContext text.toList m) "www".toList = false := by
  unfold extractUniqueCode at h
  rw [hkv] at h
  exact pickStandalone_filtered text.toList (standaloneMatches text.toList) m h

/-- Witness for claim C2 on a concrete fallback extraction. -/
theorem extractUniqueCode_fallback_filters_witness :
    (!"ABCDE1234".toList.isEmpty && "ABCDE1234".toList.all isDigitJs) = false ∧
    containsSub (standaloneContext "Hello ABCDE1234 yes".toList "ABCDE1234") ['@'] = false ∧
    containsSub (standaloneContext "Hello ABCDE1234 yes".toList "ABCDE1234")
      "http".toList = false ∧
    containsSub (standaloneContext "Hello ABCDE1234 yes".toList "ABCDE1234")
      "www".toList = false :=
  extractUniqueCode_fallback_filters "Hello ABCDE1234 yes" "ABCDE1234"
    (by decide) (by decide)

theorem jsTrimList_eq (cs : List Char) :
    jsTrimList cs = (cs.dropWhile jsIsSpace).rdropWhile jsIsSpace := by
  simp [jsTrimList, List.rdropWhile]

theorem jsTrimList_idem (cs : List Char) : jsTrimList (jsTrimList cs) = jsTrimList cs := by
  rw [jsTrimList_eq cs, jsTrimList_eq]
  have hdx : (((cs.dropWhile jsIsSpace).rdropWhile jsIsSpace).dropWhile jsIsSpace)
      = (cs.dropWhile jsIsSpace).rdropWhile jsIsSpace := by
    rw [List.dropWhile_eq_self_iff]
    intro hl
    have hpre := List.rdropWhile_prefix jsIsSpace (cs.dropWhile jsIsSpace)
    have hlen : 0 < (cs.dropWhile jsIsSpace).length :=
      lt_of_lt_of_le hl hpre.length_le
    have hget : ((cs.dropWhile jsIsSpace).rdropWhile jsIsSpace).get ⟨0, hl⟩
        = (cs.dropWhile jsIsSpace).get ⟨0, hlen⟩ := by
      simp only [List.get_eq_getElem]
      exact hpre.getElem hl
    rw [hget]
    exact List.dropWhile_get_zero_not _ _ hlen
  rw [hdx, List.rdropWhile_idempotent]

theorem jsTrim_idem (s : String) : jsTrim (jsTrim s) = jsTrim s := by
  unfold jsTrim
  rw [List.toList_asString, jsTrimList_idem]

theorem string_length_toList (s : String) : s.length = s.toList.length := rfl

/-- Claim C5: an input whose trimmed form has entry-code shape (length
3 to 30, only [A-Za-z0-9 hyphen underscore], none of dot, at-sign,
slash) is classified entry underscore code with success, the trimmed
input as the entry code and raw data, and confidence 1. -/
theorem processQRCode_entry_code (ext : ExternalWorld) (qrText : String)
    (h3 : 3 ≤ (jsTrim qrText).length) (h30 : (jsTrim qrText).length ≤ 30)
    (hall : (jsTrim qrText).toList.all entryChar = true)
    (hdot : (jsTrim qrText).toList.contains '.' = false)
    (hat : (jsTrim qrText).toList.contains '@' = false)
    (hsl : (jsTrim qrText).toList.contains '/' = false) :
    processQRCode ext qrText =
      { success := true, type := .entry_code,
        data := some { entryCode := some (jsTrim qrText), rawData := jsTrim qrText,
                       confidence := 1 } } := by
  have hne : ¬ (jsTrim qrText = "") := by
    intro he
    rw [he] at h3
    exact absurd h3 (by decide)
  have hE : isEntryCode (jsTrim qrText) = true := by
    unfold isEntryCode
    rw [jsTrim_idem]
    have c1 : ((jsTrim qrText).length < 3 || 30 < (jsTrim qrText).length) = false := by
      simp only [Bool.or_eq_false_iff, decide_eq_false_iff_not, not_lt]
      exact ⟨h3, h30⟩
    have hemp : (jsTrim qrText).toList.isEmpty = false := by
      rcases hc : (jsTrim qrText).toList with _ | ⟨a, t⟩
      · rw [string_length_toList, hc] at h3
        exact absurd h3 (by decide)
      · rfl
    have c2 : (!(!(jsTrim qrText).toList.isEmpty && (jsTrim qrText).toList.all entryChar)) = false := by
      rw [hemp, hall]
      rfl
    have c3 : ((jsTrim qrText).toList.contains '.' || (jsTrim qrText).toList.contains '@' ||
        (jsTrim qrText).toList.contains '/') = false := by
      rw [hdot, hat, hsl]
      rfl
    have hnn : ¬ (jsTrim qrText).toList = [] := by
      intro h
      rw [h] at hemp
      exact absurd hemp (by decide)
    have hd1 : '.' ∉ (jsTrim qrText).toList := by
      intro hmem
      have hcc := List.elem_iff.mpr hmem
      rw [List.contains] at hdot
      rw [hdot] at hcc
      cases hcc
    have hd2 : '@' ∉ (jsTrim qrText).toList := by
      intro hmem
      have hcc := List.elem_iff.mpr hmem
      rw [List.contains] at hat
      rw [hat] at hcc
      cases hcc
    have hd3 : '/' ∉ (jsTrim qrText).toList := by
      intro hmem
      have hcc := List.elem_iff.mpr hmem
      rw [List.contains] at hsl
      rw [hsl] at hcc
      cases hcc
    simp [c1, c2, c3]
    exact ⟨⟨hnn, fun x hx => List.all_eq_true.mp hall x hx⟩, ⟨hd1, hd2⟩, hd3⟩
  simp only [processQRCode]
  rw [if_neg hne, if_pos hE]

/-- Claim C4: when the input reaches the URL branch (non-empty after
trimming, not an entry code, no mailto or tel prefix, URL check
positive) and the crawler call fails — a thrown transport or timeout
error or a non-success response — processQRCode still succeeds with
type url and the scraped details degrade to a record whose website is
the trimmed input URL. -/
theorem processQRCode_url_degrades (ext : ExternalWorld) (qrText : String)
    (hne : jsTrim qrText ≠ "")
    (hentry : isEntryCode (jsTrim qrText) = false)
    (hmailto : jsStartsWith (jsToLower (jsTrim qrText)) "mailto:" = false)
    (htel : jsStartsWith (jsToLower (jsTrim qrText)) "tel:" = false)
    (hurl : ext.isURLResult (jsTrim qrText) = true)
    (hcrawl : ext.crawler = .unsuccessful ∨ ext.crawler = .failure) :
    (processQRCode ext qrText).success = true ∧
    (processQRCode ext qrText).type = QRType.url ∧
    ((processQRCode ext qrText).data.bind QRData.details).map QRContactData.website
      = some (JsField.str (jsTrim qrText)) := by
  have hscrape : scrapeWebpage ext.crawler (jsTrim qrText)
      = { website := .str (jsTrim qrText) } := by
    rcases hcrawl with h | h
    · rw [h]
      rfl
    · rw [h]
      rfl
  simp only [processQRCode]
  rw [if_neg hne]
  simp only [hentry, Bool.false_eq_true, if_false, hmailto, htel, hurl, if_true, hscrape]
  exact ⟨trivial, trivial, rfl⟩

theorem jsReplaceFirst_mailto (s : String) (hpre : jsStartsWith s "mailto:" = true) :
    jsReplaceFirst s "mailto:" "" = (s.toList.drop 7).asString := by
  unfold jsStartsWith at hpre
  unfold jsReplaceFirst jsReplaceFirstList
  rcases hs : s.toList with _ | ⟨c, t⟩
  · rw [hs] at hpre
    exact absurd hpre (by decide)
  · rw [hs] at hpre
    simp only [jsIndexOf, hpre, if_pos]
    simp

theorem isEntryCode_false_of_colon (x : String) (hc : ':' ∈ (jsTrim x).toList) :
    isEntryCode x = false := by
  unfold isEntryCode
  have hall : (jsTrim x).toList.all entryChar = false := by
    by_cases h : (jsTrim x).toList.all entryChar = true
    · have := List.all_eq_true.mp h ':' hc
      exact absurd this (by decide)
    · exact Bool.eq_false_iff.mpr h
  by_cases h1 : ((jsTrim x).length < 3 || 30 < (jsTrim x).length) = true
  · simp [h1]
  · have h1f : ((jsTrim x).length < 3 || 30 < (jsTrim x).length) = false :=
      Bool.eq_false_iff.mpr h1
    have c2 : (!(!(jsTrim x).toList.isEmpty && (jsTrim x).toList.all entryChar)) = true := by
      rw [hall]
      simp
    simp [h1f, c2]
    intro _ hall2 _ _
    exact absurd (hall2 ':' hc) (by decide)

/-- Claim C3 (amended): only for an input whose trimmed form starts
with the exact lower-case prefix mailto: does the parser strip the
prefix (String replace with a string pattern is case sensitive, while
the branch guard lower-cases the input first); when moreover the
address portion — the input after the prefix, truncated before the
first question mark and trimmed — URL-decodes without error to v, the
result has details.email = v. -/
theorem processQRCode_mailto_lowercase (ext : ExternalWorld) (qrText v : String)
    (hpre : jsStartsWith (jsTrim qrText) "mailto:" = true)
    (hdec : decodeURIComponent
        (jsTrim ((splitOnChar '?' ((jsTrim qrText).toList.drop 7)).headD []).asString)
      = some v) :
    (processQRCode ext qrText).success = true ∧
    (processQRCode ext qrText).type = QRType.mailto ∧
    ((processQRCode ext qrText).data.bind QRData.details).map QRContactData.email
      = some (JsField.str v) := by
  obtain ⟨u, hu⟩ := List.isPrefixOf_iff_prefix.mp hpre
  have hne : jsTrim qrText ≠ "" := by
    intro he
    rw [he] at hu
    have : ("mailto:".toList ++ u).length = (("" : String).toList).length := by rw [hu]
    simp at this
  have hcolon : ':' ∈ (jsTrim (jsTrim qrText)).toList := by
    rw [jsTrim_idem, ← hu]
    exact List.mem_append_left u (by decide)
  have hE : isEntryCode (jsTrim qrText) = false :=
    isEntryCode_false_of_colon (jsTrim qrText) hcolon
  have hlow : jsStartsWith (jsToLower (jsTrim qrText)) "mailto:" = true := by
    unfold jsStartsWith jsToLower
    rw [List.toList_asString, ← hu, List.map_append]
    have hm : "mailto:".toList.map Char.toLower = "mailto:".toList := by decide
    rw [hm]
    exact List.isPrefixOf_iff_prefix.mpr (List.prefix_append _ _)
  have haddr : mailtoAddress (jsTrim qrText)
      = jsTrim ((splitOnChar '?' ((jsTrim qrText).toList.drop 7)).headD []).asString := by
    unfold mailtoAddress
    rw [jsReplaceFirst_mailto _ hpre]
    simp only [List.toList_asString]
  have hparse : parseMailtoLink (jsTrim qrText) = { email := .str v } := by
    unfold parseMailtoLink
    rw [haddr, hdec]
  simp only [processQRCode]
  rw [if_neg hne]
  simp only [hE, Bool.false_eq_true, if_false, hlow, if_true, hparse]
  exact ⟨trivial, trivial, rfl⟩

/-- Witness for claim C5 at the concrete entry code ABC123XYZ. -/
theorem processQRCode_entry_code_witness :
    processQRCode extW "ABC123XYZ" =
      { success := true, type := .entry_code,
        data := some { entryCode := some (jsTrim "ABC123XYZ"), rawData := jsTrim "ABC123XYZ",
                       confidence := 1 } } :=
  processQRCode_entry_code extW "ABC123XYZ" (by decide) (by decide) (by decide)
    (by decide) (by decide) (by decide)

/-- Witness for claim C4 at a concrete URL with a failing crawler. -/
theorem processQRCode_url_degrades_witness :
    (processQRCode extU "https://example.com").success = true ∧
    (processQRCode extU "https://example.com").type = QRType.url ∧
    ((processQRCode extU "https://example.com").data.bind QRData.details).map
        QRContactData.website = some (JsField.str (jsTrim "https://example.com")) :=
  processQRCode_url_degrades extU "https://example.com" (by decide) (by decide)
    (by decide) (by decide) rfl (Or.inr rfl)

/-- Claim C3 counterexample: the upper-case input MAILTO:a@b.com is
classified as a mailto link (the guard lower-cases), but the
case-sensitive replace does not strip the prefix, so details.email is
the whole input rather than the URL-decoded stripped address a@b.com. -/
theorem processQRCode_mailto_uppercase_not_stripped :
    (processQRCode extW "MAILTO:a@b.com").type = QRType.mailto ∧
    ((processQRCode extW "MAILTO:a@b.com").data.bind QRData.details).map
        QRContactData.email = some (JsField.str "MAILTO:a@b.com") ∧
    decodeURIComponent
        (jsTrim ((splitOnChar '?' ((jsTrim "MAILTO:a@b.com").toList.drop 7)).headD []).asString)
      = some "a@b.com" ∧
    "MAILTO:a@b.com" ≠ "a@b.com" := by
  refine ⟨by decide, by decide, by decide, by decide⟩

/-- Witness for claim C3 at a concrete lower-case mailto link with a
query part. -/
theorem processQRCode_mailto_lowercase_witness :
    (processQRCode extW "mailto:a@b.com?subject=Hi").success = true ∧
    (processQRCode extW "mailto:a@b.com?subject=Hi").type = QRType.mailto ∧
    ((processQRCode extW "mailto:a@b.com?subject=Hi").data.bind QRData.details).map
        QRContactData.email = some (JsField.str "a@b.com") :=
  processQRCode_mailto_lowercase extW "mailto:a@b.com?subject=Hi" "a@b.com"
    (by decide) (by decide)
